import Mathlib

/-!
Verification of the task query/filter/sort pipeline of the amplenote-cache
MCP server (`src/app/tasks.py`, `src/app/models/task_attrs.py`,
`src/app/models/task_content.py`, `src/app/database.py`).

Shallow-embedding conventions:
* SQLite values are embedded typed: nullable integer columns become
  `Option Int`, text columns `String`.  Timestamps (Python `datetime`
  produced by `datetime.fromtimestamp`) are represented by their epoch
  seconds as `Int`; `datetime.timestamp()` is the identity under this
  representation, and comparisons between datetimes coincide with `Int`
  comparisons of the epochs.
* Python floats (task points, victory values, JSON numbers) are modelled
  as `Rat`; the code only ever compares them, never does arithmetic, so
  any ordered field is a faithful model (NaN payloads are outside the
  model).
* A serialized payload column (`attrs`, `content`) is modelled as
  `PayloadCol`: the raw column text (used by the SQL `LIKE` pushdown and
  by Python truthiness checks) together with the outcome of `json.loads`
  on it (`none` = `json.JSONDecodeError`).
* `fallible` Python code is embedded in `Except` / `Option`.
-/

namespace App

/-- A JSON value as produced by `json.loads`.  Numbers are `Rat`
(Python `int` and `float` collapse to their rational value; the code only
compares numbers). -/
inductive Json where
  | null : Json
  | bool (b : Bool) : Json
  | num (q : Rat) : Json
  | str (s : String) : Json
  | arr (elems : List Json) : Json
  | obj (fields : List (String × Json)) : Json

/-- One inline formatting mark (`TextMark` in `task_content.py`): its
`type` is one of the literals `em`, `strong`, `code`. -/
inductive TextMark where
  | em | strong | code
deriving DecidableEq

/-- `TextNode` from `task_content.py`. -/
structure TextNode where
  text : String
  marks : Option (List TextMark) := none
deriving DecidableEq

/-- `LinkAttrs` from `task_content.py`. -/
structure LinkAttrs where
  href : String
  description : Option String := none
  media : Option String := none
deriving DecidableEq

/-- `LinkNode` from `task_content.py` (its `type` discriminator is the
literal `link`; `content` is its visible label, a list of text nodes). -/
structure LinkNode where
  attrs : LinkAttrs
  content : List TextNode
deriving DecidableEq

/-- The three legal inline node kinds of a paragraph
(`TextNode | LinkNode | HardBreakNode` in `task_content.py`). -/
inductive InlineNode where
  | text (t : TextNode)
  | link (l : LinkNode)
  | hard_break (marks : Option (List TextMark))
deriving DecidableEq

/-- `ParagraphNode` from `task_content.py`. -/
structure ParagraphNode where
  content : List InlineNode
deriving DecidableEq

/-- `TaskContent` (a pydantic `RootModel` over a list of paragraphs). -/
structure TaskContent where
  root : List ParagraphNode
deriving DecidableEq

/-- The string fragments one inline node contributes in
`TaskContent.to_plain_text`: the text run verbatim, the texts of a link
label, or one newline for a hard break. -/
def InlineNode.textParts : InlineNode → List String
  | .text t => [t.text]
  | .link l => l.content.map TextNode.text
  | .hard_break _ => ["\n"]

/-- `TaskContent.to_plain_text` from `task_content.py`: walk every
paragraph's nodes in order, collect the fragments, join with `""`. -/
def TaskContent.to_plain_text (c : TaskContent) : String :=
  String.join (c.root.flatMap fun p => p.content.flatMap InlineNode.textParts)

/-- `TaskAttrs` from `task_attrs.py`: the sparse metadata bag, every field
independently optional.  `repeat` is a Lean keyword, so the source field
`repeat` is embedded as `repeat_`. -/
structure TaskAttrs where
  created_at : Option Int := none
  completed_at : Option Int := none
  crossed_out_at : Option Int := none
  start_at : Option Int := none
  notify : Option String := none
  duration : Option String := none
  repeat_ : Option String := none
  start_rule : Option String := none
  due_day_part : Option String := none
  flags : Option String := none
  points : Option Rat := none
  points_updated_at : Option Int := none
  victory_value : Option Rat := none
  streak_count : Option Int := none
  references : Option (List String) := none
deriving DecidableEq

/-- Modelled pydantic validation of an `int | None` field: accepts JSON
null or an integral number (pydantic lax mode coerces integral floats);
any other shape is a `ValidationError`. -/
def Json.asOptInt : Json → Option (Option Int)
  | .null => some none
  | .num q => if q.den = 1 then some (some q.num) else none
  | _ => none

/-- Modelled pydantic validation of a `float | None` field: accepts JSON
null or any number. -/
def Json.asOptRat : Json → Option (Option Rat)
  | .null => some none
  | .num q => some (some q)
  | _ => none

/-- Modelled pydantic validation of a `str | None` field. -/
def Json.asOptStr : Json → Option (Option String)
  | .null => some none
  | .str s => some (some s)
  | _ => none

/-- Modelled pydantic validation of a `list[str] | None` field. -/
def Json.asOptStrList : Json → Option (Option (List String))
  | .null => some none
  | .arr elems =>
      (elems.mapM fun j => match j with | Json.str s => some s | _ => none).map some
  | _ => none

/-- Look a field up under its accepted key names (validation alias first,
then the field name — `populate_by_name=True` accepts both); a missing
key yields the field's default. -/
def fieldUnder (fs : List (String × Json)) (keys : List String)
    (conv : Json → Option β) (dflt : β) : Option β :=
  match keys.findSome? (fun k => fs.lookup k) with
  | none => some dflt
  | some j => conv j

/-- `TaskAttrs(**data)` for a JSON object `data`, i.e. pydantic
validation of `TaskAttrs` (modelled): unknown keys are ignored, each
known field validates independently, and one wrong-typed known field
fails the whole parse (`none` = `ValidationError`). -/
def TaskAttrs.validate (fs : List (String × Json)) : Option TaskAttrs := do
  let created_at ← fieldUnder fs ["createdAt", "created_at"] Json.asOptInt none
  let completed_at ← fieldUnder fs ["completedAt", "completed_at"] Json.asOptInt none
  let crossed_out_at ← fieldUnder fs ["crossedOutAt", "crossed_out_at"] Json.asOptInt none
  let start_at ← fieldUnder fs ["startAt", "start_at"] Json.asOptInt none
  let notify ← fieldUnder fs ["notify"] Json.asOptStr none
  let duration ← fieldUnder fs ["duration"] Json.asOptStr none
  let repeat_ ← fieldUnder fs ["repeat"] Json.asOptStr none
  let start_rule ← fieldUnder fs ["startRule", "start_rule"] Json.asOptStr none
  let due_day_part ← fieldUnder fs ["dueDayPart", "due_day_part"] Json.asOptStr none
  let flags ← fieldUnder fs ["flags"] Json.asOptStr none
  let points ← fieldUnder fs ["points"] Json.asOptRat none
  let points_updated_at ← fieldUnder fs ["pointsUpdatedAt", "points_updated_at"] Json.asOptInt none
  let victory_value ← fieldUnder fs ["victoryValue", "victory_value"] Json.asOptRat none
  let streak_count ← fieldUnder fs ["streakCount", "streak_count"] Json.asOptInt none
  let references ← fieldUnder fs ["references"] Json.asOptStrList none
  some { created_at, completed_at, crossed_out_at, start_at, notify,
         duration, repeat_, start_rule, due_day_part, flags, points,
         points_updated_at, victory_value, streak_count, references }

/-- Modelled pydantic validation of an optional `list[TextMark]`. -/
def validateMarks (fs : List (String × Json)) : Option (Option (List TextMark)) :=
  fieldUnder fs ["marks"]
    (fun j => match j with
      | .null => some none
      | .arr elems =>
          (elems.mapM fun m => match m with
            | Json.obj mfs =>
                match mfs.lookup "type" with
                | some (.str "em") => some TextMark.em
                | some (.str "strong") => some TextMark.strong
                | some (.str "code") => some TextMark.code
                | _ => none
            | _ => none).map some
      | _ => none)
    none

/-- Modelled pydantic validation of a `TextNode`: requires
`type = "text"` and a string `text`; `marks` optional. -/
def validateTextNode (j : Json) : Option TextNode :=
  match j with
  | .obj fs =>
      match fs.lookup "type" with
      | some (.str "text") => do
          let text ← match fs.lookup "text" with
            | some (.str s) => some s
            | _ => none
          let marks ← validateMarks fs
          some { text, marks }
      | _ => none
  | _ => none

/-- Modelled pydantic validation of one paragraph inline node
(`TextNode | LinkNode | HardBreakNode`): dispatch on the `type`
discriminator; an unknown discriminator fails the parse. -/
def validateInlineNode (j : Json) : Option InlineNode :=
  match j with
  | .obj fs =>
      match fs.lookup "type" with
      | some (.str "text") => (validateTextNode j).map InlineNode.text
      | some (.str "link") => do
          let attrs ← match fs.lookup "attrs" with
            | some (.obj afs) => do
                let href ← match afs.lookup "href" with
                  | some (.str s) => some s
                  | _ => none
                let description ← fieldUnder afs ["description"] Json.asOptStr none
                let media ← fieldUnder afs ["media"] Json.asOptStr none
                some (LinkAttrs.mk href description media)
            | _ => none
          let content ← match fs.lookup "content" with
            | some (.arr elems) => elems.mapM validateTextNode
            | _ => none
          some (InlineNode.link { attrs, content })
      | some (.str "hard_break") => do
          let marks ← validateMarks fs
          some (InlineNode.hard_break marks)
      | _ => none
  | _ => none

/-- Modelled pydantic validation of a `ParagraphNode`. -/
def validateParagraph (j : Json) : Option ParagraphNode :=
  match j with
  | .obj fs =>
      match fs.lookup "type" with
      | some (.str "paragraph") =>
          match fs.lookup "content" with
          | some (.arr elems) => (elems.mapM validateInlineNode).map ParagraphNode.mk
          | _ => none
      | _ => none
  | _ => none

/-- `TaskContent.model_validate` (modelled pydantic validation): the
payload must be an array of paragraph nodes; any malformed node fails the
whole document. -/
def TaskContent.model_validate (j : Json) : Option TaskContent :=
  match j with
  | .arr elems => (elems.mapM validateParagraph).map TaskContent.mk
  | _ => none

/-- One serialized payload column as stored in the tasks table: the raw
column text together with the outcome of `json.loads` on it (`none`
models `json.JSONDecodeError`, i.e. invalid serialization syntax). -/
structure PayloadCol where
  raw : String
  json : Option Json

/-- Python exceptions that can escape the embedded task-service code. -/
inductive PyErr where
  | typeError : PyErr
  | attributeError (attrName : String) : PyErr
  | operationalError : PyErr
deriving DecidableEq

namespace TasksService

/-- `TasksService._parse_task_attrs` (tasks.py:14-24).  Absent or empty
payloads (`if not attrs_json`) give `None`; `json.JSONDecodeError` and
pydantic `ValidationError` are caught and give `None`; but when the
payload is valid JSON that is not an object, `TaskAttrs(**data)` raises
`TypeError`, which the `except` clause does not catch. -/
def parse_task_attrs (col : Option PayloadCol) : Except PyErr (Option TaskAttrs) :=
  match col with
  | none => .ok none
  | some p =>
      if p.raw = "" then .ok none
      else
        match p.json with
        | none => .ok none
        | some (Json.obj fs) => .ok (TaskAttrs.validate fs)
        | some _ => .error PyErr.typeError

/-- `TasksService._parse_task_content` (tasks.py:26-36).  Absent or empty
payloads give `None`; `json.JSONDecodeError` and `ValidationError` are
caught and give `None`; `model_validate` accepts any JSON shape, so this
parser never raises. -/
def parse_task_content (col : Option PayloadCol) : Option TaskContent :=
  match col with
  | none => none
  | some p =>
      if p.raw = "" then none
      else
        match p.json with
        | none => none
        | some j => TaskContent.model_validate j

end TasksService

/-- One raw row of the `tasks` relation, in the column order selected by
the service (`id, uuid, local_uuid, remote_uuid, deleted,
calendar_sync_required, notify_at, attrs, content, due, done,
is_scheduled_bullet, parent_uuid`).  Nullable integer columns are
`Option Int`; `attrs`/`content` are nullable payload columns. -/
structure Row where
  id : Int
  uuid : String
  local_uuid : String
  remote_uuid : String
  deleted : Option Int
  calendar_sync_required : Option Int
  notify_at : Option Int
  attrs : Option PayloadCol
  content : Option PayloadCol
  due : Option Int
  done : Option Int
  is_scheduled_bullet : Option Int
  parent_uuid : String

/-- The assembled `Task` record (`task_models.py`); `attrs`/`content`
hold the parse results, timestamps hold epoch seconds. -/
structure Task where
  id : Int
  uuid : String
  local_uuid : String
  remote_uuid : String
  deleted : Bool
  calendar_sync_required : Bool
  notify_at : Option Int
  attrs : Option TaskAttrs
  content : Option TaskContent
  due : Option Int
  done : Bool
  is_scheduled_bullet : Bool
  parent_uuid : String
deriving DecidableEq

/-- `False if column == 0 else True` on a nullable integer column: NULL
and every non-zero value map to `true`. -/
def boolOfCol (v : Option Int) : Bool := !(v == some 0)

/-- `None if column is None or column == 0 else datetime.fromtimestamp(column)`:
NULL and `0` both mean "unset". -/
def instantOfCol (v : Option Int) : Option Int :=
  match v with
  | none => none
  | some t => if t = 0 then none else some t

/-- The dict built for each row in `TasksService.query_tasks`
(tasks.py:603-617), given the already-parsed payloads. -/
def assembleTask (r : Row) (attrs : Option TaskAttrs) (content : Option TaskContent) : Task :=
  { id := r.id
    uuid := r.uuid
    local_uuid := r.local_uuid
    remote_uuid := r.remote_uuid
    deleted := boolOfCol r.deleted
    calendar_sync_required := boolOfCol r.calendar_sync_required
    notify_at := instantOfCol r.notify_at
    attrs := attrs
    content := content
    due := instantOfCol r.due
    done := boolOfCol r.done
    is_scheduled_bullet := boolOfCol r.is_scheduled_bullet
    parent_uuid := r.parent_uuid }

/-- The `flags_filter` literal values of `TaskQuery`
(`"urgent" | "important" | "both" | "none" | "any"`). -/
inductive FlagsFilter where
  | urgent | important | both | none_ | any
deriving DecidableEq

/-- The `sort_by` literal values of `TaskQuery`. -/
inductive SortBy where
  | due | points | created | completed | victory_value | streak_count
deriving DecidableEq

/-- `TaskQuery` from `task_models.py`, with the pydantic defaults.
`limit`/`offset` are `Nat` because pydantic rejects negatives
(`limit: ge=1, le=1000`; `offset: ge=0`); the upper bound on `limit` is
carried as a hypothesis where a claim needs it. -/
structure TaskQuery where
  content_search : Option String := none
  include_deleted : Bool := false
  include_done : Bool := false
  has_due_date : Option Bool := none
  due_before : Option Int := none
  due_after : Option Int := none
  min_points : Option Rat := none
  max_points : Option Rat := none
  min_victory_value : Option Rat := none
  max_victory_value : Option Rat := none
  min_streak_count : Option Int := none
  max_streak_count : Option Int := none
  created_after : Option Int := none
  created_before : Option Int := none
  completed_after : Option Int := none
  completed_before : Option Int := none
  start_after : Option Int := none
  start_before : Option Int := none
  flags_filter : Option FlagsFilter := none
  has_flags : Option String := none
  has_duration : Option Bool := none
  duration_equals : Option String := none
  is_recurring : Option Bool := none
  has_references : Option Bool := none
  references_uuid : Option String := none
  sort_by : Option SortBy := none
  sort_descending : Bool := false
  limit : Nat := 20
  offset : Nat := 0

/-- ASCII lower-casing of one character, as SQLite's default `LIKE`
case-folds ASCII letters. -/
def asciiLower (c : Char) : Char :=
  if 'A' ≤ c ∧ c ≤ 'Z' then Char.ofNat (c.toNat + 32) else c

/-- `b` starts with `a`. -/
def charsLeadWith : List Char → List Char → Bool
  | [], _ => true
  | _ :: _, [] => false
  | a :: as, b :: bs => a == b && charsLeadWith as bs

/-- `needle` occurs as a contiguous run inside `hay`. -/
def charsHaveRun (needle : List Char) : List Char → Bool
  | [] => charsLeadWith needle []
  | c :: cs => charsLeadWith needle (c :: cs) || charsHaveRun needle cs

/-- `column LIKE '%needle%'` under SQLite's default ASCII-case-blind
`LIKE` (modelled as substring containment after ASCII case folding;
wildcard characters inside the parameter are not modelled). -/
def sqlLike (hay needle : String) : Bool :=
  charsHaveRun (needle.toList.map asciiLower) (hay.toList.map asciiLower)

/-- A snapshot of the `tasks` relation read through the per-call
connection. -/
structure DbState where
  rows : List Row

/-- SQL clause ` AND (deleted IS NULL OR deleted = 0)` added when
`include_deleted` is false (tasks.py:465-466). -/
def sqlDeletedClause (q : TaskQuery) (r : Row) : Bool :=
  q.include_deleted || r.deleted == none || r.deleted == some 0

/-- SQL clause ` AND (done IS NULL OR done = 0)` added when
`include_done` is false (tasks.py:468-469). -/
def sqlDoneClause (q : TaskQuery) (r : Row) : Bool :=
  q.include_done || r.done == none || r.done == some 0

/-- SQL clauses ` AND due IS NOT NULL` / ` AND due IS NULL` for
`has_due_date` (tasks.py:472-476). -/
def sqlHasDueClause (q : TaskQuery) (r : Row) : Bool :=
  match q.has_due_date with
  | none => true
  | some true => r.due.isSome
  | some false => r.due.isNone

/-- SQL clauses ` AND due >= ?` / ` AND due <= ?` (tasks.py:479-485);
comparing a NULL `due` yields SQL NULL, which filters the row out. -/
def sqlDueRangeClause (q : TaskQuery) (r : Row) : Bool :=
  (match q.due_after with
   | none => true
   | some t => match r.due with | none => false | some d => t ≤ d)
  && (match q.due_before with
      | none => true
      | some t => match r.due with | none => false | some d => d ≤ t)

/-- SQL clause ` AND content LIKE ?` added when `content_search` is
truthy, i.e. set and non-empty (tasks.py:488-490); `LIKE` on a NULL
content column filters the row out. -/
def sqlContentClause (q : TaskQuery) (r : Row) : Bool :=
  match q.content_search with
  | none => true
  | some s =>
      if s = "" then true
      else match r.content with
           | none => false
           | some p => sqlLike p.raw s

/-- The whole `WHERE` clause the service pushes down to SQLite in
`query_tasks` (tasks.py:455-491). -/
def pushdownPred (q : TaskQuery) (r : Row) : Bool :=
  sqlDeletedClause q r && sqlDoneClause q r && sqlHasDueClause q r
    && sqlDueRangeClause q r && sqlContentClause q r

/-- The candidate rows `cursor.fetchall()` returns for the pushed-down
query, in table order. -/
def pushdownRows (q : TaskQuery) (db : DbState) : List Row :=
  db.rows.filter (pushdownPred q)

/-- `attrs.flags if attrs and attrs.flags else ""` (tasks.py:550,571):
absent attrs, absent flags and empty flags all collapse to `""`. -/
def effFlags (attrs : Option TaskAttrs) : String :=
  match attrs with
  | none => ""
  | some a => match a.flags with | none => "" | some f => f

/-- One min/max bound over an optional field, as the code writes it:
`if not attrs or field is None or field < bound: continue` — keep only
when attrs and the field are present and the bound holds. -/
def passBound (bound : Option α) (attrs : Option TaskAttrs)
    (field : TaskAttrs → Option α) (keep : α → α → Bool) : Bool :=
  match bound with
  | none => true
  | some b =>
      match attrs with
      | none => false
      | some a => match field a with | none => false | some v => keep v b

/-- The in-memory attribute-level filter block of `query_tasks`
(tasks.py:500-600), applied to each row's parsed attrs.  Python subtlety
kept: for `has_duration` / `is_recurring` / `has_references`, absent
attrs make the computed value `None`, and `None != bool` always holds,
so the row is dropped whichever boolean the query asked for; but
`flags_filter == "none"` and an empty `has_flags` treat absent attrs as
an empty flag string and keep the row. -/
def passesAttrFilters (q : TaskQuery) (attrs : Option TaskAttrs) : Bool :=
  passBound q.min_points attrs TaskAttrs.points (fun v b => decide (b ≤ v))
  && passBound q.max_points attrs TaskAttrs.points (fun v b => decide (v ≤ b))
  && passBound q.min_victory_value attrs TaskAttrs.victory_value (fun v b => decide (b ≤ v))
  && passBound q.max_victory_value attrs TaskAttrs.victory_value (fun v b => decide (v ≤ b))
  && passBound q.min_streak_count attrs TaskAttrs.streak_count (fun v b => decide (b ≤ v))
  && passBound q.max_streak_count attrs TaskAttrs.streak_count (fun v b => decide (v ≤ b))
  && passBound q.created_after attrs TaskAttrs.created_at (fun v b => decide (b ≤ v))
  && passBound q.created_before attrs TaskAttrs.created_at (fun v b => decide (v ≤ b))
  && passBound q.completed_after attrs TaskAttrs.completed_at (fun v b => decide (b ≤ v))
  && passBound q.completed_before attrs TaskAttrs.completed_at (fun v b => decide (v ≤ b))
  && passBound q.start_after attrs TaskAttrs.start_at (fun v b => decide (b ≤ v))
  && passBound q.start_before attrs TaskAttrs.start_at (fun v b => decide (v ≤ b))
  && (match q.flags_filter with
      | none => true
      | some f =>
          let flags := effFlags attrs
          let hasU := flags.toList.contains 'U'
          let hasI := flags.toList.contains 'I'
          match f with
          | .urgent => hasU && !hasI
          | .important => hasI && !hasU
          | .both => hasU && hasI
          | .none_ => !hasU && !hasI
          | .any => hasU || hasI)
  && (match q.has_flags with
      | none => true
      | some need => need.toList.all (fun c => (effFlags attrs).toList.contains c))
  && (match q.has_duration with
      | none => true
      | some b => match attrs with
                  | none => false
                  | some a => b == a.duration.isSome)
  && (match q.duration_equals with
      | none => true
      | some d => match attrs with
                  | none => false
                  | some a => a.duration == some d)
  && (match q.is_recurring with
      | none => true
      | some b => match attrs with
                  | none => false
                  | some a => b == a.repeat_.isSome)
  && (match q.has_references with
      | none => true
      | some b => match attrs with
                  | none => false
                  | some a => b == (match a.references with
                                    | none => false
                                    | some l => !l.isEmpty))
  && (match q.references_uuid with
      | none => true
      | some u => match attrs with
                  | none => false
                  | some a => match a.references with
                              | none => false
                              | some l => !l.isEmpty && l.contains u)

/-- The row loop of `query_tasks` (tasks.py:495-617): parse the two
payloads, apply the in-memory filters, assemble the surviving rows in
fetch order.  An uncaught exception from `_parse_task_attrs` aborts the
whole loop. -/
def processRows (q : TaskQuery) : List Row → Except PyErr (List Task)
  | [] => .ok []
  | r :: rs =>
      match TasksService.parse_task_attrs r.attrs with
      | .error e => .error e
      | .ok attrs =>
          let content := TasksService.parse_task_content r.content
          if passesAttrFilters q attrs then
            match processRows q rs with
            | .error e => .error e
            | .ok rest => .ok (assembleTask r attrs content :: rest)
          else
            processRows q rs

/-- Stable insertion of `a` into a run-sorted list: `a` goes before the
first element it compares `le` to, so an earlier element precedes every
later element with an equal key. -/
def insertLe (le : α → α → Bool) (a : α) : List α → List α
  | [] => [a]
  | b :: bs => if le a b then a :: b :: bs else b :: insertLe le a bs

/-- Stable sort by a boolean comparison, the semantics of Python's
`list.sort(key=..)` for a total preorder: equal keys keep their original
relative order. -/
def sortLe (le : α → α → Bool) : List α → List α
  | [] => []
  | a :: as => insertLe le a (sortLe le as)

/-- `list.sort(key=k, reverse=desc)`: `reverse=True` is the stable sort
by the reversed comparison. -/
def pySort (le : α → α → Bool) (desc : Bool) (l : List α) : List α :=
  if desc then sortLe (fun a b => le b a) l else sortLe le l

/-- Sort key comparison for the default `due` branch (tasks.py:645-649):
`x["due"].timestamp() if x["due"] else float("inf")` — an absent due
date compares as positive infinity. -/
def dueLe (a b : Task) : Bool :=
  match a.due, b.due with
  | none, none => true
  | none, some _ => false
  | some _, none => true
  | some x, some y => decide (x ≤ y)

/-- Sort key for the `points` branch (tasks.py:620-624):
`x["attrs"].points if x["attrs"] and x["attrs"].points else 0` — absent
attrs, absent points and falsy `0.0` all key as `0`. -/
def pointsKey (t : Task) : Rat :=
  match t.attrs with
  | none => 0
  | some a => a.points.getD 0

/-- Sort key for the `created` branch (tasks.py:625-629). -/
def createdKey (t : Task) : Int :=
  match t.attrs with
  | none => 0
  | some a => a.created_at.getD 0

/-- Sort key for the `completed` branch (tasks.py:630-634). -/
def completedKey (t : Task) : Int :=
  match t.attrs with
  | none => 0
  | some a => a.completed_at.getD 0

/-- Sort key for the `victory_value` branch (tasks.py:635-639). -/
def victoryKey (t : Task) : Rat :=
  match t.attrs with
  | none => 0
  | some a => a.victory_value.getD 0

/-- Sort key for the `streak_count` branch (tasks.py:640-644). -/
def streakKey (t : Task) : Int :=
  match t.attrs with
  | none => 0
  | some a => a.streak_count.getD 0

/-- The sort phase of `query_tasks` (tasks.py:619-649): dispatch on
`sort_by`, defaulting to the `due` key for `"due"` and for `None`. -/
def applySort (q : TaskQuery) (l : List Task) : List Task :=
  match q.sort_by with
  | some .points => pySort (fun a b => decide (pointsKey a ≤ pointsKey b)) q.sort_descending l
  | some .created => pySort (fun a b => decide (createdKey a ≤ createdKey b)) q.sort_descending l
  | some .completed => pySort (fun a b => decide (completedKey a ≤ completedKey b)) q.sort_descending l
  | some .victory_value => pySort (fun a b => decide (victoryKey a ≤ victoryKey b)) q.sort_descending l
  | some .streak_count => pySort (fun a b => decide (streakKey a ≤ streakKey b)) q.sort_descending l
  | _ => pySort dueLe q.sort_descending l

/-- The pagination phase (tasks.py:651-654):
`results[query.offset : query.offset + query.limit]`. -/
def paginate (q : TaskQuery) (l : List Task) : List Task :=
  (l.drop q.offset).take q.limit

/-- `TasksService.query_tasks` (tasks.py:438-657), given a connection
whose `cursor.execute` succeeded: pushdown, fetch, per-row parse and
filter, sort, paginate. -/
def query_tasksRun (q : TaskQuery) (db : DbState) : Except PyErr (List Task) :=
  (processRows q (pushdownRows q db)).map (fun res => paginate q (applySort q res))

deriving instance DecidableEq for Except

/-- The outcome of one `query_tasks` call: the returned value or escaped
exception, plus whether `conn.close()` was reached. -/
structure CallExit (α : Type) where
  result : Except PyErr α
  connClosed : Bool
deriving DecidableEq

/-- One full `query_tasks` call on an acquired connection, tracking the
connection lifetime.  `storageOk = false` models `cursor.execute`
raising (storage unreachable mid-call).  The source has no
`try`/`finally` and no `with` block: `conn.close()` (tasks.py:656) runs
only when the body reaches the normal return. -/
def query_tasksCall (q : TaskQuery) (db : DbState) (storageOk : Bool) :
    CallExit (List Task) :=
  if !storageOk then ⟨.error PyErr.operationalError, false⟩
  else
    match processRows q (pushdownRows q db) with
    | .error e => ⟨.error e, false⟩
    | .ok res => ⟨.ok (paginate q (applySort q res)), true⟩

/-- The method names the `DatabaseConnection` class in `database.py`
defines (besides object defaults): only `__init__` and
`get_connection`. -/
def DatabaseConnection.methods : List String := ["__init__", "get_connection"]

/-- The attribute every `TasksService` method requests from its
`db_connection` collaborator (tasks.py:44, 95, 152, 216, 295, 372,
451). -/
def TasksService.connectionAttr : String := "get_readonly_connection"

/-- Python attribute lookup on an object exposing `methods`: succeeds
exactly when the name is defined. -/
def getAttrResolves (methods : List String) (attrName : String) : Bool :=
  methods.contains attrName

/-- `TasksService.query_tasks` invoked with the concrete
`DatabaseConnection` collaborator from `database.py`: the first
statement `conn = self.db_connection.get_readonly_connection()`
performs the attribute lookup; if it fails, `AttributeError` escapes
before any connection exists or any SQL runs. -/
def query_tasksViaDatabaseConnection (q : TaskQuery) (db : DbState)
    (storageOk : Bool) : CallExit (List Task) :=
  if getAttrResolves DatabaseConnection.methods TasksService.connectionAttr then
    query_tasksCall q db storageOk
  else
    ⟨.error (PyErr.attributeError TasksService.connectionAttr), false⟩

/-- The attrs value the row loop works with when parsing does not raise:
the parsed bag, or `none` on a caught parse failure. -/
def parsedAttrsD (r : Row) : Option TaskAttrs :=
  match TasksService.parse_task_attrs r.attrs with
  | .ok a => a
  | .error _ => none

/-- The row loop's output on rows none of which raise: the rows passing
the in-memory filters, assembled in fetch order. -/
def processRowsPure (q : TaskQuery) (rows : List Row) : List Task :=
  (rows.filter fun r => passesAttrFilters q (parsedAttrsD r)).map
    fun r => assembleTask r (parsedAttrsD r) (TasksService.parse_task_content r.content)

/-- Whether `flags_filter` is set to a value other than `"none"`. -/
def strictFlagsFilter (q : TaskQuery) : Bool :=
  match q.flags_filter with
  | some .urgent => true
  | some .important => true
  | some .both => true
  | some .any => true
  | _ => false

/-- Whether `has_flags` is set to a non-empty flag string. -/
def strictHasFlags (q : TaskQuery) : Bool :=
  match q.has_flags with
  | some s => !s.toList.isEmpty
  | none => false

/-- The attribute-scoped filters of a `TaskQuery` that the code evaluates
strictly against absent attrs (dropping the row): every min/max range,
`flags_filter` other than `"none"`, a non-empty `has_flags`, and the
duration/recurrence/reference predicates.  (`flags_filter = "none"` and
`has_flags = ""` instead treat absent attrs as an empty flag string and
keep the row.) -/
def hasStrictAttrFilter (q : TaskQuery) : Bool :=
  q.min_points.isSome || q.max_points.isSome
  || q.min_victory_value.isSome || q.max_victory_value.isSome
  || q.min_streak_count.isSome || q.max_streak_count.isSome
  || q.created_after.isSome || q.created_before.isSome
  || q.completed_after.isSome || q.completed_before.isSome
  || q.start_after.isSome || q.start_before.isSome
  || strictFlagsFilter q
  || strictHasFlags q
  || q.has_duration.isSome || q.duration_equals.isSome || q.is_recurring.isSome
  || q.has_references.isSome || q.references_uuid.isSome

/-- What one inline node renders to, per the specification: a text run
verbatim, the concatenated text of a link's label sequence, one newline
per hard break. -/
def renderInline : InlineNode → String
  | .text t => t.text
  | .link l => String.join (l.content.map TextNode.text)
  | .hard_break _ => "\n"

/-- The specification's flattening: concatenate, in document order, each
node's rendering within each paragraph. -/
def flattenPerSpec (d : TaskContent) : String :=
  String.join (d.root.map fun p => String.join (p.content.map renderInline))

/-- The one-paragraph document
`[text "Review the ", link(label "TICKET-123"), text " today"]`. -/
def ticketDoc : TaskContent :=
  { root := [{ content := [
      InlineNode.text { text := "Review the " },
      InlineNode.link { attrs := { href := "https://example.com/TICKET-123" },
                        content := [{ text := "TICKET-123" }] },
      InlineNode.text { text := " today" }] }] }

/-- A benign live row: not deleted, not done, due at epoch 5, no
payloads. -/
def exRowDue : Row :=
  { id := 1, uuid := "task-a", local_uuid := "la", remote_uuid := "ra",
    deleted := some 0, calendar_sync_required := some 0, notify_at := none,
    attrs := none, content := none, due := some 5, done := some 0,
    is_scheduled_bullet := some 0, parent_uuid := "" }

/-- Like `exRowDue` but with a NULL due column. -/
def exRowNoDue : Row :=
  { exRowDue with id := 2, uuid := "task-b", due := none }

/-- An attrs payload whose JSON object carries `points = 2`
(raw text `{"points": 2}`). -/
def pointsPayload : PayloadCol :=
  { raw := "\x7b\"points\": 2\x7d", json := some (Json.obj [("points", Json.num 2)]) }

/-- The parse of `pointsPayload`. -/
def pointsAttrs : TaskAttrs := { points := some 2 }

/-- Like `exRowDue` but carrying `pointsPayload` as its attrs column. -/
def exRowPoints : Row :=
  { exRowDue with id := 3, uuid := "task-c", attrs := some pointsPayload }

/-- An attrs payload that is not valid JSON (truncated syntax). -/
def badSyntaxPayload : PayloadCol :=
  { raw := "\x7b\"points\": ", json := none }

/-- A content payload with an unknown node type discriminator. -/
def badNodePayload : PayloadCol :=
  { raw := "[\x7b\"type\": \"mystery\"\x7d]",
    json := some (Json.arr [Json.obj [("type", Json.str "mystery")]]) }

/-- Like `exRowDue` but both payload columns malformed. -/
def exRowMalformed : Row :=
  { exRowDue with
    id := 4
    uuid := "task-d"
    attrs := some badSyntaxPayload
    content := some badNodePayload }

/-- The permissive query used to exhibit that malformed rows are still
returned: include everything, one page large enough for any db below the
pydantic `limit` ceiling. -/
def q_all : TaskQuery := { include_deleted := true, include_done := true, limit := 1000 }

/-- An attrs payload malformed in one of the claim's enumerated senses:
non-empty but either invalid serialization syntax, or a JSON object with
a wrong-typed known field (a failed `TaskAttrs` validation).  (A non-empty
valid-JSON payload that is not an object is outside these classes: there
`TaskAttrs(**data)` raises an uncaught `TypeError`.) -/
def attrsPayloadMalformed (p : PayloadCol) : Prop :=
  p.raw ≠ "" ∧
    (p.json = none ∨ ∃ fs, p.json = some (Json.obj fs) ∧ TaskAttrs.validate fs = none)

/-- A content payload malformed in one of the claim's enumerated senses:
non-empty but either invalid serialization syntax, or JSON that fails
document validation (unknown node type discriminator, wrong-typed field,
or a non-array document). -/
def contentPayloadMalformed (p : PayloadCol) : Prop :=
  p.raw ≠ "" ∧
    (p.json = none ∨ ∃ j, p.json = some j ∧ TaskContent.model_validate j = none)

/-- Like `exRowDue` but with a NULL `deleted` column. -/
def exRowNullDeleted : Row :=
  { exRowDue with id := 9, uuid := "task-i", deleted := none }

/-- Like `exRowDue` but with a malformed attrs payload and a NULL
content column. -/
def exRowBadAttrs : Row :=
  { exRowDue with
    id := 5
    uuid := "task-e"
    attrs := some badSyntaxPayload }

/-- Like `exRowDue` but with `due` stored as the integer `0`. -/
def exRowZeroDue : Row :=
  { exRowDue with id := 10, uuid := "task-j", due := some 0 }

/-- Per-case unfolding of the row loop. -/
theorem processRows_cons (q : TaskQuery) (r : Row) (rs : List Row) :
    processRows q (r :: rs) =
      match TasksService.parse_task_attrs r.attrs with
      | .error e => .error e
      | .ok attrs =>
          if passesAttrFilters q attrs then
            match processRows q rs with
            | .error e => .error e
            | .ok rest =>
                .ok (assembleTask r attrs (TasksService.parse_task_content r.content) :: rest)
          else processRows q rs := rfl

theorem insertLe_perm (le : α → α → Bool) (a : α) (l : List α) :
    List.Perm (insertLe le a l) (a :: l) := by
  induction l with
  | nil => exact List.Perm.refl _
  | cons b bs ih =>
      unfold insertLe
      by_cases h : le a b = true
      · rw [if_pos h]
      · rw [if_neg h]
        exact (List.Perm.cons b ih).trans (List.Perm.swap a b bs)

theorem sortLe_perm (le : α → α → Bool) (l : List α) : List.Perm (sortLe le l) l := by
  induction l with
  | nil => exact List.Perm.refl _
  | cons a as ih =>
      exact (insertLe_perm le a (sortLe le as)).trans (List.Perm.cons a ih)

theorem insertLe_pairwise (le : α → α → Bool)
    (htot : ∀ a b, le a b = true ∨ le b a = true)
    (htrans : ∀ a b c, le a b = true → le b c = true → le a c = true)
    (a : α) (l : List α) (hl : l.Pairwise (fun x y => le x y = true)) :
    (insertLe le a l).Pairwise (fun x y => le x y = true) := by
  induction l with
  | nil => simp [insertLe]
  | cons b bs ih =>
      rcases List.pairwise_cons.mp hl with ⟨hb, hbs⟩
      unfold insertLe
      by_cases h : le a b = true
      · rw [if_pos h]
        refine List.pairwise_cons.mpr ⟨?_, hl⟩
        intro x hx
        rcases List.mem_cons.mp hx with hxb | hx
        · rw [hxb]; exact h
        · exact htrans a b x h (hb x hx)
      · rw [if_neg h]
        refine List.pairwise_cons.mpr ⟨?_, ih hbs⟩
        intro x hx
        rcases List.mem_cons.mp ((insertLe_perm le a bs).mem_iff.mp hx) with hxa | hx
        · rw [hxa]; exact (htot a b).resolve_left h
        · exact hb x hx

theorem sortLe_pairwise (le : α → α → Bool)
    (htot : ∀ a b, le a b = true ∨ le b a = true)
    (htrans : ∀ a b c, le a b = true → le b c = true → le a c = true)
    (l : List α) : (sortLe le l).Pairwise (fun x y => le x y = true) := by
  induction l with
  | nil => simp [sortLe]
  | cons a as ih => exact insertLe_pairwise le htot htrans a _ ih

theorem pySort_perm (le : α → α → Bool) (d : Bool) (l : List α) :
    List.Perm (pySort le d l) l := by
  unfold pySort
  split
  · exact sortLe_perm _ l
  · exact sortLe_perm _ l

theorem applySort_perm (q : TaskQuery) (l : List Task) : List.Perm (applySort q l) l := by
  unfold applySort
  split <;> exact pySort_perm _ _ _

theorem paginate_sublist (q : TaskQuery) (l : List Task) : List.Sublist (paginate q l) l :=
  (List.take_sublist _ _).trans (List.drop_sublist _ _)

theorem except_isOk_iff {ε α : Type} {e : Except ε α} :
    e.isOk = true ↔ ∃ a, e = .ok a := by
  cases e <;> simp [Except.isOk, Except.toBool]

theorem processRows_ok_eq (q : TaskQuery) :
    ∀ {rows : List Row} {res : List Task}, processRows q rows = .ok res →
      res = processRowsPure q rows := by
  intro rows
  induction rows with
  | nil =>
      intro res h
      simp [processRows] at h
      simp [processRowsPure, ← h]
  | cons r rs ih =>
      intro res h
      rw [processRows_cons] at h
      cases hp : TasksService.parse_task_attrs r.attrs with
      | error e => rw [hp] at h; simp at h
      | ok a =>
          rw [hp] at h
          have hD : parsedAttrsD r = a := by simp [parsedAttrsD, hp]
          simp only [] at h
          by_cases hpass : passesAttrFilters q a = true
          · rw [if_pos hpass] at h
            cases hrec : processRows q rs with
            | error e => rw [hrec] at h; simp at h
            | ok rest =>
                rw [hrec] at h
                simp only [Except.ok.injEq] at h
                rw [← h]
                simp [processRowsPure, List.filter_cons, hD, hpass]
                have := ih hrec
                simp [processRowsPure] at this
                exact this
          · rw [if_neg hpass] at h
            have := ih h
            simp only [processRowsPure, List.filter_cons, hD, hpass] at this ⊢
            simpa using this

theorem processRows_ok_of_all (q : TaskQuery) :
    ∀ {rows : List Row},
      (∀ r ∈ rows, (TasksService.parse_task_attrs r.attrs).isOk = true) →
      processRows q rows = .ok (processRowsPure q rows) := by
  intro rows
  induction rows with
  | nil => intro _; simp [processRows, processRowsPure]
  | cons r rs ih =>
      intro hall
      obtain ⟨a, ha⟩ := except_isOk_iff.mp (hall r (List.mem_cons_self r rs))
      have hD : parsedAttrsD r = a := by simp [parsedAttrsD, ha]
      have hrec := ih (fun r' hr' => hall r' (List.mem_cons_of_mem r hr'))
      rw [processRows_cons, ha]
      simp only []
      by_cases hpass : passesAttrFilters q a = true
      · rw [if_pos hpass, hrec]
        simp [processRowsPure, List.filter_cons, hD, hpass]
      · rw [if_neg hpass, hrec]
        simp [processRowsPure, List.filter_cons, hD, hpass]

theorem mem_processRowsPure_passes {q : TaskQuery} {rows : List Row} {t : Task}
    (h : t ∈ processRowsPure q rows) : passesAttrFilters q t.attrs = true := by
  rcases List.mem_map.mp h with ⟨r, hr, rfl⟩
  exact (List.mem_filter.mp hr).2

theorem processRowsPure_ids_sublist (q : TaskQuery) (rows : List Row) :
    List.Sublist ((processRowsPure q rows).map Task.id) (rows.map Row.id) := by
  unfold processRowsPure
  rw [List.map_map]
  rw [show (Task.id ∘ fun r =>
        assembleTask r (parsedAttrsD r) (TasksService.parse_task_content r.content)) = Row.id
      from funext fun r => rfl]
  exact List.Sublist.map Row.id (List.filter_sublist rows)

theorem passBound_none_true {α : Type} {bound : Option α}
    {f : TaskAttrs → Option α} {k : α → α → Bool}
    (h : passBound bound none f k = true) : bound = none := by
  cases bound with
  | none => rfl
  | some b => simp [passBound] at h

theorem contains_empty_toList (c : Char) : ("".toList.contains c) = false := rfl

theorem passes_none_strict_false {q : TaskQuery}
    (hp : passesAttrFilters q none = true) : hasStrictAttrFilter q = false := by
  simp only [passesAttrFilters, Bool.and_eq_true, and_assoc] at hp
  obtain ⟨h1, h2, h3, h4, h5, h6, h7, h8, h9, h10, h11, h12, h13, h14,
          h15, h16, h17, h18, h19⟩ := hp
  have hflags : strictFlagsFilter q = false := by
    unfold strictFlagsFilter
    cases hf : q.flags_filter with
    | none => rfl
    | some f =>
        rw [hf] at h13
        simp only [effFlags] at h13
        cases f <;> simp only [] at h13 ⊢ <;>
          first
          | rfl
          | (rw [contains_empty_toList] at h13; simp at h13)
  have hhf : strictHasFlags q = false := by
    unfold strictHasFlags
    cases hf : q.has_flags with
    | none => rfl
    | some s =>
        rw [hf] at h14
        simp only [effFlags] at h14
        cases hs : s.toList with
        | nil => simp only [hs]; rfl
        | cons c cs =>
            rw [hs] at h14
            rw [List.all_cons, contains_empty_toList] at h14
            simp at h14
  have hdur : q.has_duration = none := by
    cases hd : q.has_duration with
    | none => rfl
    | some b => rw [hd] at h15; simp at h15
  have hde : q.duration_equals = none := by
    cases hd : q.duration_equals with
    | none => rfl
    | some d => rw [hd] at h16; simp at h16
  have hrec : q.is_recurring = none := by
    cases hd : q.is_recurring with
    | none => rfl
    | some b => rw [hd] at h17; simp at h17
  have href : q.has_references = none := by
    cases hd : q.has_references with
    | none => rfl
    | some b => rw [hd] at h18; simp at h18
  have hru : q.references_uuid = none := by
    cases hd : q.references_uuid with
    | none => rfl
    | some u => rw [hd] at h19; simp at h19
  simp [hasStrictAttrFilter, passBound_none_true h1, passBound_none_true h2,
        passBound_none_true h3, passBound_none_true h4, passBound_none_true h5,
        passBound_none_true h6, passBound_none_true h7, passBound_none_true h8,
        passBound_none_true h9, passBound_none_true h10, passBound_none_true h11,
        passBound_none_true h12, hflags, hhf, hdur, hde, hrec, href, hru]

theorem strictFilter_drops_absent {q : TaskQuery}
    (h : hasStrictAttrFilter q = true) : passesAttrFilters q none = false := by
  rcases Bool.eq_false_or_eq_true (passesAttrFilters q none) with ht | hf
  · rw [passes_none_strict_false ht] at h
    cases h
  · exact hf

theorem dueLe_total (a b : Task) : dueLe a b = true ∨ dueLe b a = true := by
  unfold dueLe
  cases a.due <;> cases b.due <;> simp <;> omega

theorem dueLe_trans (a b c : Task) (h1 : dueLe a b = true) (h2 : dueLe b c = true) :
    dueLe a c = true := by
  unfold dueLe at h1 h2 ⊢
  cases ha : a.due <;> cases hb : b.due <;> cases hc : c.due <;>
    rw [ha, hb] at h1 <;> rw [hb, hc] at h2 <;> simp_all <;> omega

theorem processRows_update (q : TaskQuery) (o m : Nat) (rows : List Row) :
    processRows { q with offset := o, limit := m } rows = processRows q rows := by
  induction rows with
  | nil => rfl
  | cons r rs ih =>
      rw [processRows_cons, processRows_cons, ih]
      rfl

theorem query_tasksRun_update (q : TaskQuery) (o m : Nat) (db : DbState) :
    query_tasksRun { q with offset := o, limit := m } db =
      (processRows q (pushdownRows q db)).map
        (fun res => ((applySort q res).drop o).take m) := by
  calc query_tasksRun { q with offset := o, limit := m } db
      = (processRows { q with offset := o, limit := m } (pushdownRows q db)).map
          (fun res => ((applySort q res).drop o).take m) := rfl
    _ = (processRows q (pushdownRows q db)).map
          (fun res => ((applySort q res).drop o).take m) := by
        rw [processRows_update]

theorem string_foldl_append_acc (l : List String) (s : String) :
    l.foldl (· ++ ·) s = s ++ l.foldl (· ++ ·) "" := by
  induction l generalizing s with
  | nil => simp
  | cons a as ih =>
      show as.foldl (· ++ ·) (s ++ a) = s ++ as.foldl (· ++ ·) ("" ++ a)
      rw [ih (s ++ a), ih ("" ++ a), String.empty_append, String.append_assoc]

theorem string_join_cons (x : String) (xs : List String) :
    String.join (x :: xs) = x ++ String.join xs := by
  show xs.foldl (· ++ ·) ("" ++ x) = x ++ xs.foldl (· ++ ·) ""
  rw [String.empty_append, string_foldl_append_acc xs x]

theorem string_join_append (a b : List String) :
    String.join (a ++ b) = String.join a ++ String.join b := by
  induction a with
  | nil => simp [String.join]
  | cons x xs ih =>
      rw [List.cons_append, string_join_cons, string_join_cons, ih,
          String.append_assoc]

theorem join_textParts (n : InlineNode) :
    String.join n.textParts = renderInline n := by
  cases n with
  | text t => simp [InlineNode.textParts, renderInline, string_join_cons, String.join]
  | link l => rfl
  | hard_break m => simp [InlineNode.textParts, renderInline, string_join_cons, String.join]

theorem join_flatMap_paragraph (nodes : List InlineNode) :
    String.join (nodes.flatMap InlineNode.textParts) =
      String.join (nodes.map renderInline) := by
  induction nodes with
  | nil => rfl
  | cons n ns ih =>
      rw [List.flatMap_cons, string_join_append, List.map_cons, string_join_cons,
          ih, join_textParts]

theorem query_tasksRun_singleton_ok (q : TaskQuery) (r : Row) (a : Option TaskAttrs)
    (hpush : pushdownPred q r = true)
    (hparse : TasksService.parse_task_attrs r.attrs = .ok a)
    (hpass : passesAttrFilters q a = true)
    (hlim : 1 ≤ q.limit) (hoff : q.offset = 0) :
    query_tasksRun q ⟨[r]⟩ =
      .ok [assembleTask r a (TasksService.parse_task_content r.content)] := by
  have hrows : pushdownRows q ⟨[r]⟩ = [r] := by
    unfold pushdownRows
    rw [List.filter_cons, if_pos hpush]
    rfl
  have hproc : processRows q [r] =
      .ok [assembleTask r a (TasksService.parse_task_content r.content)] := by
    rw [processRows_cons, hparse]
    simp only []
    rw [if_pos hpass]
    rfl
  unfold query_tasksRun
  rw [hrows, hproc]
  simp only [Except.map]
  have hsingle : applySort q [assembleTask r a (TasksService.parse_task_content r.content)] =
      [assembleTask r a (TasksService.parse_task_content r.content)] :=
    List.perm_singleton.mp (applySort_perm q _)
  rw [hsingle]
  unfold paginate
  rw [hoff, List.drop_zero, List.take_of_length_le (by simpa using hlim)]

/-- Claim C1 counterexample: the claim is false as stated.  The query
whose only attribute-scoped filter is `flags_filter = "none"` still
returns a task whose attrs column is NULL: the code computes an empty
flag string for absent attrs, and an empty flag string has neither `U`
nor `I`, so the `"none"` branch keeps the row. -/
theorem c1_counterexample :
    query_tasksRun { flags_filter := some FlagsFilter.none_ } ⟨[exRowDue]⟩ =
      Except.ok [assembleTask exRowDue none none] ∧
    (assembleTask exRowDue none none).attrs = none := by
  constructor
  · decide
  · rfl

/-- Claim C1 (amended): for every `TaskQuery` with at least one
attribute-scoped filter set strictly — any min/max range, a
`flags_filter` other than `"none"`, a non-empty `has_flags`,
`has_duration`, `duration_equals`, `is_recurring`, `has_references` or
`references_uuid` — every task whose attrs payload is absent or failed
to parse is excluded from the result of `query_tasks`.
(`flags_filter = "none"` and an empty `has_flags` are the exceptions the
counterexample exhibits.) -/
theorem c1_amended (q : TaskQuery) (db : DbState) (l : List Task)
    (hstrict : hasStrictAttrFilter q = true)
    (hrun : query_tasksRun q db = Except.ok l) :
    ∀ t ∈ l, t.attrs.isSome = true := by
  unfold query_tasksRun at hrun
  cases hres : processRows q (pushdownRows q db) with
  | error e => rw [hres] at hrun; simp [Except.map] at hrun
  | ok res =>
      rw [hres] at hrun
      simp only [Except.map, Except.ok.injEq] at hrun
      intro t ht
      rw [← hrun] at ht
      have ht1 : t ∈ applySort q res := (paginate_sublist q _).subset ht
      have ht2 : t ∈ res := (applySort_perm q res).mem_iff.mp ht1
      rw [processRows_ok_eq q hres] at ht2
      have hpass := mem_processRowsPure_passes ht2
      cases hattrs : t.attrs with
      | some a => rfl
      | none =>
          rw [hattrs] at hpass
          rw [strictFilter_drops_absent hstrict] at hpass
          cases hpass

/-- Witness for C1 (amended): a query with `min_points = 1` over a db
with one attrs-less row and one row with `points = 2` returns only the
latter, whose attrs are present. -/
theorem c1_amended_witness :
    (assembleTask exRowPoints (some pointsAttrs) none).attrs.isSome = true :=
  c1_amended { min_points := some 1 } ⟨[exRowDue, exRowPoints]⟩
    [assembleTask exRowPoints (some pointsAttrs) none] (by decide) (by decide)
    (assembleTask exRowPoints (some pointsAttrs) none) (List.mem_cons_self _ _)

/-- Claim C2 counterexample: the claim is false as stated.  With the
default `due` sort key and `sort_descending = True`, the code passes
`reverse=True` to the same `float("inf")` key, so the task without a due
date comes FIRST, not last: it is not "placed after every task with a
due date regardless of sort_descending". -/
theorem c2_counterexample :
    query_tasksRun { sort_descending := true } ⟨[exRowDue, exRowNoDue]⟩ =
      Except.ok [assembleTask exRowNoDue none none, assembleTask exRowDue none none] ∧
    (assembleTask exRowNoDue none none).due = none ∧
    (assembleTask exRowDue none none).due = some 5 := by
  refine ⟨by decide, by decide, by decide⟩

/-- Claim C2 (amended): under the default `due` key (`sort_by` omitted or
`"due"`) with `sort_descending = False`, the result of `query_tasks` is
pairwise ordered so that every task with a due date precedes every task
without one, and due-dated tasks appear in non-decreasing due order.
(When `sort_descending = True` the order is reversed, absent due dates
first, as the counterexample shows.) -/
theorem c2_amended (q : TaskQuery) (db : DbState) (l : List Task)
    (hsort : q.sort_by = none ∨ q.sort_by = some SortBy.due)
    (hdesc : q.sort_descending = false)
    (hrun : query_tasksRun q db = Except.ok l) :
    l.Pairwise (fun a b =>
      (a.due = none → b.due = none) ∧
      ∀ x y, a.due = some x → b.due = some y → x ≤ y) := by
  unfold query_tasksRun at hrun
  cases hres : processRows q (pushdownRows q db) with
  | error e => rw [hres] at hrun; simp [Except.map] at hrun
  | ok res =>
      rw [hres] at hrun
      simp only [Except.map, Except.ok.injEq] at hrun
      have hdue : applySort q res = sortLe dueLe res := by
        rcases hsort with h | h <;> simp [applySort, h, pySort, hdesc]
      have hsorted : (applySort q res).Pairwise (fun x y => dueLe x y = true) := by
        rw [hdue]; exact sortLe_pairwise dueLe dueLe_total dueLe_trans res
      have hl : l.Pairwise (fun x y => dueLe x y = true) := by
        rw [← hrun]
        exact hsorted.sublist (paginate_sublist q _)
      refine List.Pairwise.imp ?_ hl
      intro a b hab
      constructor
      · intro hna
        cases hnb : b.due with
        | none => rfl
        | some y => simp [dueLe, hna, hnb] at hab
      · intro x y hx hy
        simp [dueLe, hx, hy] at hab
        exact hab

/-- Witness for C2 (amended): the default ascending due sort over one
due-dated and one due-less task puts the due-dated task first and the
pair satisfies both ordering conditions. -/
theorem c2_amended_witness :
    List.Pairwise (fun a b =>
      (a.due = none → b.due = none) ∧
      ∀ x y, a.due = some x → b.due = some y → x ≤ y)
      [assembleTask exRowDue none none, assembleTask exRowNoDue none none] :=
  c2_amended { sort_by := some SortBy.due } ⟨[exRowNoDue, exRowDue]⟩
    [assembleTask exRowDue none none, assembleTask exRowNoDue none none]
    (Or.inr rfl) rfl (by decide)

/-- Claim C3: pagination law.  For a fixed query (all fields but
offset/limit held constant) over a fixed database state whose task ids
are unique (the `id` column is the INTEGER PRIMARY KEY of the tasks
table), and any `k` with `k` and `2*k` inside the legal limit range
(pydantic: 1-1000), page(0,k) ++ page(k,k) = page(0,2k) and the two
pages' id sets are disjoint. -/
theorem c3_pagination (q : TaskQuery) (db : DbState) (k : Nat)
    (l1 l2 l12 : List Task)
    (hk1 : 1 ≤ k) (hk2 : 2 * k ≤ 1000)
    (hids : (db.rows.map Row.id).Nodup)
    (h1 : query_tasksRun { q with offset := 0, limit := k } db = Except.ok l1)
    (h2 : query_tasksRun { q with offset := k, limit := k } db = Except.ok l2)
    (h12 : query_tasksRun { q with offset := 0, limit := 2 * k } db = Except.ok l12) :
    l1 ++ l2 = l12 ∧ ∀ i ∈ l1.map Task.id, i ∉ l2.map Task.id := by
  rw [query_tasksRun_update] at h1 h2 h12
  cases hres : processRows q (pushdownRows q db) with
  | error e => rw [hres] at h1; simp [Except.map] at h1
  | ok res =>
      rw [hres] at h1 h2 h12
      simp only [Except.map, Except.ok.injEq] at h1 h2 h12
      rw [List.drop_zero] at h1 h12
      have hcat : l1 ++ l2 = l12 := by
        rw [← h1, ← h2, ← h12]
        rw [show 2 * k = k + k from by omega]
        rw [List.take_drop k k (applySort q res)]
        rw [show (applySort q res).take k =
              ((applySort q res).take (k + k)).take k from by
            rw [List.take_take, Nat.min_eq_left (Nat.le_add_right k k)]]
        exact List.take_append_drop k ((applySort q res).take (k + k))
      have hsortN : ((applySort q res).map Task.id).Nodup := by
        have hpd : ((pushdownRows q db).map Row.id).Nodup :=
          (List.Sublist.map Row.id (List.filter_sublist db.rows)).nodup hids
        have hresN : (res.map Task.id).Nodup := by
          rw [processRows_ok_eq q hres]
          exact (processRowsPure_ids_sublist q _).nodup hpd
        exact (((applySort_perm q res).map Task.id).symm).nodup hresN
      have h12N : (l12.map Task.id).Nodup := by
        rw [← h12]
        exact (List.Sublist.map Task.id (List.take_sublist _ _)).nodup hsortN
      rw [← hcat, List.map_append] at h12N
      exact ⟨hcat, fun i hi1 hi2 => List.disjoint_of_nodup_append h12N hi1 hi2⟩

/-- Witness for C3: the default query with `k = 1` over a two-row db:
page one is the due-dated task, page two the due-less task, their
concatenation is the full page of size two, and the id sets are
disjoint. -/
theorem c3_pagination_witness :
    [assembleTask exRowDue none none] ++ [assembleTask exRowNoDue none none] =
      [assembleTask exRowDue none none, assembleTask exRowNoDue none none] ∧
    ∀ i ∈ [assembleTask exRowDue none none].map Task.id,
      i ∉ [assembleTask exRowNoDue none none].map Task.id :=
  c3_pagination {} ⟨[exRowDue, exRowNoDue]⟩ 1
    [assembleTask exRowDue none none] [assembleTask exRowNoDue none none]
    [assembleTask exRowDue none none, assembleTask exRowNoDue none none]
    (by decide) (by decide) (by decide) (by decide) (by decide) (by decide)

/-- Claim C4: for every task row in the result set whose attrs payload
or content payload is malformed in the enumerated senses (invalid
serialization syntax, an unknown node type discriminator, a wrong-typed
known field), the corresponding parse function returns no value and does
not raise — `_parse_task_attrs` catches the error and returns `ok none`,
`_parse_task_content` returns `none` — and `query_tasks` (run over any
db whose rows all parse without an uncaught exception) still returns the
row as a Task, with the corresponding field absent; the malformed row
does not abort the multi-row query. -/
theorem c4_malformed (r : Row) (db : DbState)
    (hmem : r ∈ db.rows)
    (hall : ∀ r' ∈ db.rows, (TasksService.parse_task_attrs r'.attrs).isOk = true)
    (hlen : db.rows.length ≤ 1000)
    (hmal : (∃ p, r.attrs = some p ∧ attrsPayloadMalformed p) ∨
            (∃ c, r.content = some c ∧ contentPayloadMalformed c)) :
    ((∃ p, r.attrs = some p ∧ attrsPayloadMalformed p) →
        TasksService.parse_task_attrs r.attrs = Except.ok none) ∧
    ((∃ c, r.content = some c ∧ contentPayloadMalformed c) →
        TasksService.parse_task_content r.content = none) ∧
    ∃ l, query_tasksRun q_all db = Except.ok l ∧
      assembleTask r (parsedAttrsD r) (TasksService.parse_task_content r.content) ∈ l ∧
      ((∃ p, r.attrs = some p ∧ attrsPayloadMalformed p) → parsedAttrsD r = none) := by
  have hA : (∃ p, r.attrs = some p ∧ attrsPayloadMalformed p) →
      TasksService.parse_task_attrs r.attrs = Except.ok none := by
    rintro ⟨p, hra, hne, hj⟩
    rw [hra]
    unfold TasksService.parse_task_attrs
    simp only []
    rw [if_neg hne]
    rcases hj with hnone | ⟨fs, hfs, hval⟩
    · rw [hnone]
    · rw [hfs]
      simp [hval]
  have hC : (∃ c, r.content = some c ∧ contentPayloadMalformed c) →
      TasksService.parse_task_content r.content = none := by
    rintro ⟨c, hrc, hne, hj⟩
    rw [hrc]
    unfold TasksService.parse_task_content
    simp only []
    rw [if_neg hne]
    rcases hj with hnone | ⟨j, hjs, hval⟩
    · rw [hnone]
    · rw [hjs]
      simp [hval]
  have hpush : pushdownRows q_all db = db.rows := by
    unfold pushdownRows
    apply List.filter_eq_self.mpr
    intro a _
    rfl
  have hproc : processRows q_all db.rows = .ok (processRowsPure q_all db.rows) :=
    processRows_ok_of_all q_all hall
  refine ⟨hA, hC,
    paginate q_all (applySort q_all (processRowsPure q_all db.rows)), ?_, ?_, ?_⟩
  · unfold query_tasksRun
    rw [hpush, hproc]
    rfl
  · have hassem : assembleTask r (parsedAttrsD r)
        (TasksService.parse_task_content r.content) ∈ processRowsPure q_all db.rows := by
      unfold processRowsPure
      exact List.mem_map.mpr ⟨r, List.mem_filter.mpr ⟨hmem, rfl⟩, rfl⟩
    have hsortmem : assembleTask r (parsedAttrsD r)
        (TasksService.parse_task_content r.content) ∈
        applySort q_all (processRowsPure q_all db.rows) :=
      (applySort_perm q_all _).mem_iff.mpr hassem
    have hlen2 : (applySort q_all (processRowsPure q_all db.rows)).length ≤ 1000 := by
      rw [(applySort_perm q_all _).length_eq]
      have hsub := (processRowsPure_ids_sublist q_all db.rows).length_le
      simp only [List.length_map] at hsub
      exact le_trans hsub hlen
    unfold paginate
    rw [show q_all.offset = 0 from rfl, show q_all.limit = 1000 from rfl,
        List.drop_zero, List.take_of_length_le hlen2]
    exact hsortmem
  · intro hAex
    simp [parsedAttrsD, hA hAex]

/-- Witness for C4: one row whose attrs payload is truncated JSON while
its content column is NULL — the "either payload malformed" case.  The
attrs parse degrades to absent without raising and the row is still
returned. -/
theorem c4_malformed_witness :
    ((∃ p, exRowBadAttrs.attrs = some p ∧ attrsPayloadMalformed p) →
        TasksService.parse_task_attrs exRowBadAttrs.attrs = Except.ok none) ∧
    ((∃ c, exRowBadAttrs.content = some c ∧ contentPayloadMalformed c) →
        TasksService.parse_task_content exRowBadAttrs.content = none) ∧
    ∃ l, query_tasksRun q_all ⟨[exRowBadAttrs]⟩ = Except.ok l ∧
      assembleTask exRowBadAttrs (parsedAttrsD exRowBadAttrs)
        (TasksService.parse_task_content exRowBadAttrs.content) ∈ l ∧
      ((∃ p, exRowBadAttrs.attrs = some p ∧ attrsPayloadMalformed p) →
        parsedAttrsD exRowBadAttrs = none) :=
  c4_malformed exRowBadAttrs ⟨[exRowBadAttrs]⟩ (List.mem_cons_self _ _)
    (by decide) (by decide)
    (Or.inl ⟨badSyntaxPayload, rfl, by decide, Or.inl rfl⟩)

/-- Claim C5: for every `TaskQuery` whose only filter field is
`min_points = P`, the result of `query_tasks` contains only tasks whose
attrs parsed successfully and whose points field is present with
`points >= P`; tasks with absent attrs or absent points are excluded. -/
theorem c5_min_points (P : Rat) (db : DbState) (l : List Task)
    (hrun : query_tasksRun { min_points := some P } db = Except.ok l) :
    ∀ t ∈ l, ∃ a, t.attrs = some a ∧ ∃ v, a.points = some v ∧ P ≤ v := by
  unfold query_tasksRun at hrun
  cases hres : processRows { min_points := some P }
      (pushdownRows { min_points := some P } db) with
  | error e => rw [hres] at hrun; simp [Except.map] at hrun
  | ok res =>
      rw [hres] at hrun
      simp only [Except.map, Except.ok.injEq] at hrun
      intro t ht
      rw [← hrun] at ht
      have ht1 : t ∈ applySort { min_points := some P } res :=
        (paginate_sublist _ _).subset ht
      have ht2 : t ∈ res := (applySort_perm _ res).mem_iff.mp ht1
      rw [processRows_ok_eq _ hres] at ht2
      have hpass := mem_processRowsPure_passes ht2
      simp only [passesAttrFilters, Bool.and_eq_true, and_assoc] at hpass
      have h1 : passBound (some P) t.attrs TaskAttrs.points
          (fun v b => decide (b ≤ v)) = true := hpass.1
      cases hta : t.attrs with
      | none => rw [hta] at h1; simp [passBound] at h1
      | some a =>
          rw [hta] at h1
          cases hpt : a.points with
          | none => simp [passBound, hpt] at h1
          | some v =>
              simp only [passBound, hpt, decide_eq_true_eq] at h1
              exact ⟨a, rfl, v, hpt, h1⟩

/-- Witness for C5: `min_points = 1` over one attrs-less row and one row
with `points = 2` returns only the latter. -/
theorem c5_min_points_witness :
    ∃ a, (assembleTask exRowPoints (some pointsAttrs) none).attrs = some a ∧
      ∃ v, a.points = some v ∧ (1 : Rat) ≤ v :=
  c5_min_points 1 ⟨[exRowDue, exRowPoints]⟩
    [assembleTask exRowPoints (some pointsAttrs) none] (by decide)
    (assembleTask exRowPoints (some pointsAttrs) none) (List.mem_cons_self _ _)

/-- Claim C6: flattening a Document is total and deterministic (it is a
pure function of the value), and it concatenates, in document order,
each text node's text verbatim, the concatenated label text of each
link, and one newline per hard break; in particular the one-paragraph
document `[text "Review the ", link(label "TICKET-123"), text " today"]`
flattens to `"Review the TICKET-123 today"`. -/
theorem c6_flatten :
    (∀ d : TaskContent, d.to_plain_text = flattenPerSpec d) ∧
    ticketDoc.to_plain_text = "Review the TICKET-123 today" := by
  constructor
  · intro d
    unfold TaskContent.to_plain_text flattenPerSpec
    induction d.root with
    | nil => rfl
    | cons p ps ih =>
        rw [List.flatMap_cons, string_join_append, List.map_cons, string_join_cons,
            ih, join_flatMap_paragraph p.content]
  · decide

/-- Claim C7 counterexample: the claim is false as stated.  When
`cursor.execute` raises after the connection was acquired (storage
unreachable mid-call), `query_tasks` propagates the exception and the
`conn.close()` at the end of the function body is never reached — the
source has no `try`/`finally` or `with` block — so the connection is not
released on this exit path. -/
theorem c7_counterexample :
    query_tasksCall {} ⟨[exRowDue]⟩ false =
      ⟨Except.error PyErr.operationalError, false⟩ := by decide

/-- Claim C7 (amended): the storage connection acquired at the start of
`query_tasks` is released exactly on the normal-return exit path: the
call closes the connection iff it returns a value, and any exit path on
which an exception escapes between acquisition and return leaves the
connection open. -/
theorem c7_amended (q : TaskQuery) (db : DbState) (storageOk : Bool) :
    (query_tasksCall q db storageOk).connClosed =
      (query_tasksCall q db storageOk).result.isOk := by
  unfold query_tasksCall
  cases storageOk with
  | false => rfl
  | true =>
      cases hres : processRows q (pushdownRows q db) <;>
        simp [hres, Except.isOk, Except.toBool]

/-- Claim C8: every `TasksService` method asks its collaborator for
`get_readonly_connection`, but the concrete `DatabaseConnection` class
only defines `get_connection`; with that collaborator, `query_tasks`
fails on the attribute lookup in its first statement — before any
storage query runs — instead of returning rows. -/
theorem c8_missing_connection_method (q : TaskQuery) (db : DbState) (storageOk : Bool) :
    query_tasksViaDatabaseConnection q db storageOk =
      ⟨Except.error (PyErr.attributeError "get_readonly_connection"), false⟩ := rfl

/-- Claim C9: a stored task row whose `deleted` column is NULL is
assembled with `deleted = True` (the assembler maps every value other
than `0` — including NULL — to `True`), yet the same row is included in
the result of the default query with `include_deleted = False`, because
the pushdown clause `(deleted IS NULL OR deleted = 0)` treats a NULL
column as not deleted. -/
theorem c9_null_deleted (r : Row)
    (hdel : r.deleted = none) (hdone : r.done = some 0)
    (hattrs : r.attrs = none) (hcont : r.content = none) :
    (assembleTask r none none).deleted = true ∧
    query_tasksRun {} ⟨[r]⟩ = Except.ok [assembleTask r none none] := by
  constructor
  · simp [assembleTask, boolOfCol, hdel]
  · have h := query_tasksRun_singleton_ok {} r none
      (by simp [pushdownPred, sqlDeletedClause, sqlDoneClause, sqlHasDueClause,
                sqlDueRangeClause, sqlContentClause, hdel, hdone])
      (by rw [hattrs]; rfl)
      rfl
      (by decide)
      rfl
    rw [hcont] at h
    simpa [TasksService.parse_task_content] using h

/-- Witness for C9: the concrete row with a NULL `deleted` column. -/
theorem c9_null_deleted_witness :
    (assembleTask exRowNullDeleted none none).deleted = true ∧
    query_tasksRun {} ⟨[exRowNullDeleted]⟩ =
      Except.ok [assembleTask exRowNullDeleted none none] :=
  c9_null_deleted exRowNullDeleted rfl rfl rfl rfl

/-- Claim C10: a task row whose `due` column stores the integer `0`
satisfies the pushdown predicate `due IS NOT NULL` of
`has_due_date = True` and is returned, yet the assembler maps the `0`
timestamp to unset, so the returned task's `due` field is absent. -/
theorem c10_zero_due :
    query_tasksRun { has_due_date := some true } ⟨[exRowZeroDue]⟩ =
      Except.ok [assembleTask exRowZeroDue none none] ∧
    (assembleTask exRowZeroDue none none).due = none := by
  refine ⟨by decide, by decide⟩

end App
